import Mathlib

/-
Verification of the TLS decorator core of the Rover HTTP client
(TlsDecorator.cpp: class TlsConnectionDecorator and class TlsDecorator).

The C++ class is embedded shallowly: its mutable fields become a Lean
structure `ConnState`; each method and each engine callback hook becomes a
Lean function on that state; the external TLS engine (libtls) is an oracle
whose results (`tls_read` / `tls_write` return values, and the hook calls the
engine makes during them) are inputs to the worker-cycle functions.  Calls to
caller-supplied delegates and to the underlying raw connection are recorded
as `Event`s; a handful of clearly marked ghost events additionally record
engine-call arguments and the exact bytes consumed from / appended to the two
byte queues, so that FIFO and drain properties can be stated.
-/

namespace Rover

/-- Bytes are modelled as natural numbers (uint8_t values). -/
abbrev Byte := Nat

/-- libtls sentinel: operation would block until more data can be read. -/
def TLS_WANT_POLLIN : Int := -2

/-- libtls sentinel: operation would block until more data can be written. -/
def TLS_WANT_POLLOUT : Int := -3

/-- Abstract token standing for the engine's TLS_PROTOCOLS_DEFAULT set. -/
def TLS_PROTOCOLS_DEFAULT : Nat := 0

/-- DECRYPTED_BUFFER_SIZE: bytes allocated for receiving decrypted data. -/
def DECRYPTED_BUFFER_SIZE : Nat := 65536

/-- Model of a libtls `tls_config` object: the verification toggles and the
allowed protocol set. -/
structure TlsConfig where
  verifycert : Bool
  verifyname : Bool
  protocols : Nat
deriving Repr, DecidableEq

/-- Model of `tls_config_new()`: verification is enabled by default. -/
def tls_config_new : TlsConfig :=
  { verifycert := true, verifyname := true, protocols := TLS_PROTOCOLS_DEFAULT }

/-- Model of `tls_config_insecure_noverifycert`. -/
def tls_config_insecure_noverifycert (c : TlsConfig) : TlsConfig :=
  { c with verifycert := false }

/-- Model of `tls_config_insecure_noverifyname`. -/
def tls_config_insecure_noverifyname (c : TlsConfig) : TlsConfig :=
  { c with verifyname := false }

/-- Model of `tls_config_set_protocols`. -/
def tls_config_set_protocols (c : TlsConfig) (p : Nat) : TlsConfig :=
  { c with protocols := p }

/-- The mutable state of one TlsConnectionDecorator instance.  Delegates are
identified abstractly by a Nat id; `none` models a null delegate pointer.
Field names follow the C++ fields (`open_` becomes `isOpen` because `open`
is reserved in Lean). -/
structure ConnState where
  /-- sendBuffer_: plaintext queued by the caller for the TLS layer. -/
  sendBuffer : List Byte
  /-- receiveBufferSecure_: ciphertext from the raw connection, awaiting
  consumption by the TLS layer. -/
  receiveBufferSecure : List Byte
  /-- open_: true until the raw connection reports broken. -/
  isOpen : Bool
  /-- canWrite_: cleared when tls_write returns TLS_WANT_POLLIN, set again
  when the read callback delivers data to the TLS layer. -/
  canWrite : Bool
  /-- stopWorker_: set when the worker thread should stop. -/
  stopWorker : Bool
  /-- dataReceivedDelegate_ (none models nullptr). -/
  dataReceivedDelegate : Option Nat
  /-- brokenDelegate_ (none models nullptr). -/
  brokenDelegate : Option Nat
deriving Repr, DecidableEq

/-- Observable actions of the connection.  The first four record real calls
made by the C++ code (to the caller's delegates and to the raw connection);
the remaining constructors are ghost instrumentation recording engine-call
arguments and queue consumption/submission, used only to state properties.
`broken`'s second argument is ghost: it records receiveBufferSecure_ at the
instant the broken delegate is invoked. -/
inductive Event where
  | dataReceived (d : List Byte)
  | broken (clean : Bool) (receiveBufferSecureAtFire : List Byte)
  | upperSend (d : List Byte)
  | upperBreak (clean : Bool)
  | encryptCall (buf : List Byte)
  | decryptCall (buflen : Nat)
  | plainConsumed (d : List Byte)
  | cipherConsumed (d : List Byte)
  | plainSubmitted (d : List Byte)
  | cipherArrived (d : List Byte)
deriving Repr, DecidableEq

/-- TlsConnectionDecorator::SecureDataReceived: append the incoming
ciphertext at the tail of receiveBufferSecure_ (and wake the worker). -/
def SecureDataReceived (data : List Byte) (s : ConnState) : ConnState :=
  { s with receiveBufferSecure := s.receiveBufferSecure ++ data }

/-- TlsConnectionDecorator::ConnectionBroken: clear open_, wake the worker,
then, if receiveBufferSecure_ is empty and a broken delegate is registered,
invoke the broken delegate with false. -/
def ConnectionBroken (s : ConnState) : ConnState × List Event :=
  let s' := { s with isOpen := false }
  if s'.receiveBufferSecure.isEmpty && s'.brokenDelegate.isSome then
    (s', [Event.broken false s'.receiveBufferSecure])
  else
    (s', [])

/-- The read callback passed to tls_connect_cbs (the engine-wants-ciphertext
hook): deliver at most buflen immediately available bytes from
receiveBufferSecure_; if none are available and the connection is still
open, return TLS_WANT_POLLIN without touching any state; otherwise set
canWrite_, remove the delivered prefix and return its length. -/
def readCb (buflen : Nat) (s : ConnState) : ConnState × Int × List Event :=
  let amt := min buflen s.receiveBufferSecure.length
  if amt = 0 ∧ s.isOpen = true then
    (s, TLS_WANT_POLLIN, [])
  else
    let consumed := s.receiveBufferSecure.take amt
    let rest :=
      if amt = s.receiveBufferSecure.length then ([] : List Byte)
      else s.receiveBufferSecure.drop amt
    ({ s with canWrite := true, receiveBufferSecure := rest },
     Int.ofNat amt,
     [Event.cipherConsumed consumed])

/-- The write callback passed to tls_connect_cbs (the engine-emits-ciphertext
hook): if the connection is open, forward the bytes to the raw connection's
SendData; in every case report the full length as written. -/
def writeCb (buf : List Byte) (s : ConnState) : ConnState × Int × List Event :=
  if s.isOpen then
    (s, Int.ofNat buf.length, [Event.upperSend buf])
  else
    (s, Int.ofNat buf.length, [])

/-- TlsConnectionDecorator::SendData: append the data at the tail of
sendBuffer_ (and wake the worker). -/
def SendData (data : List Byte) (s : ConnState) : ConnState :=
  { s with sendBuffer := s.sendBuffer ++ data }

/-- TlsConnectionDecorator::SetDataReceivedDelegate: the override has an
empty body, so the state is returned unchanged. -/
def SetDataReceivedDelegate (d : Option Nat) (s : ConnState) : ConnState :=
  s

/-- TlsConnectionDecorator::SetBrokenDelegate: the override has an empty
body, so the state is returned unchanged. -/
def SetBrokenDelegate (d : Option Nat) (s : ConnState) : ConnState :=
  s

/-- TlsConnectionDecorator::Break: forwards an abrupt break
(upperLayer_->Break(false)) regardless of the requested cleanliness; no
state changes. -/
def Break (clean : Bool) (s : ConnState) : ConnState × List Event :=
  (s, [Event.upperBreak false])

/-- The wake predicate of the worker's condition-variable wait, translated
from the lambda passed to wakeCondition_.wait. -/
def wakePredicate (s : ConnState) : Bool :=
  s.stopWorker || !s.receiveBufferSecure.isEmpty ||
    (!s.sendBuffer.isEmpty && s.canWrite)

/-- The wake predicate as worded by the specification: stopRequested OR
secureReceiveBuffer non-empty OR (sendBuffer non-empty AND canFeedEngine). -/
def wakePredicateSpec (s : ConnState) : Prop :=
  s.stopWorker = true ∨ s.receiveBufferSecure ≠ [] ∨
    (s.sendBuffer ≠ [] ∧ s.canWrite = true)

/-- One callback the engine makes into the decorator during a tls_read or
tls_write call: either the read hook (with the requested byte count) or the
write hook (with the ciphertext the engine emits). -/
inductive HookCall where
  | read (buflen : Nat)
  | write (buf : List Byte)
deriving Repr, DecidableEq

/-- Run the sequence of hook calls the engine makes during one tls_read or
tls_write invocation (the hooks run on the worker under the lock). -/
def runHooks : List HookCall → ConnState → ConnState × List Event
  | [], s => (s, [])
  | HookCall.read n :: rest, s =>
      let r := readCb n s
      let r' := runHooks rest r.1
      (r'.1, r.2.2 ++ r'.2)
  | HookCall.write b :: rest, s =>
      let r := writeCb b s
      let r' := runHooks rest r.1
      (r'.1, r.2.2 ++ r'.2)

/-- Oracle describing one tls_write call by the worker: the hook calls the
engine makes during it and the value tls_write returns. -/
structure EngineCall where
  hooks : List HookCall
  result : Int
deriving Repr, DecidableEq

/-- The write-attempt phase of one Worker wake cycle, translated from the
first block of TlsConnectionDecorator::Worker's loop: if sendBuffer_ is
non-empty and canWrite_ and open_, call tls_write with the whole
sendBuffer_ (ghost event encryptCall records the argument); on
TLS_WANT_POLLIN clear canWrite_; on another negative result break the raw
connection abruptly; otherwise remove the consumed prefix from sendBuffer_
(ghost event plainConsumed records it). -/
def writeAttempt (enc : EngineCall) (s : ConnState) : ConnState × List Event :=
  if !s.sendBuffer.isEmpty && s.canWrite && s.isOpen then
    let called := s.sendBuffer
    let r := runHooks enc.hooks s
    let s1 := r.1
    let hookEvs := r.2
    let amount := enc.result
    if amount = TLS_WANT_POLLIN then
      ({ s1 with canWrite := false }, Event.encryptCall called :: hookEvs)
    else if amount < 0 then
      (s1, Event.encryptCall called :: (hookEvs ++ [Event.upperBreak false]))
    else
      let n := amount.toNat
      let newSend :=
        if n = s1.sendBuffer.length then ([] : List Byte)
        else s1.sendBuffer.drop n
      ({ s1 with sendBuffer := newSend },
       Event.encryptCall called ::
         (hookEvs ++ [Event.plainConsumed (s1.sendBuffer.take n)]))
  else
    (s, [])

/-- An externally triggered operation on the connection: a delegate call
from the raw connection, or a call from the caller. -/
inductive ExternalOp where
  | secureDataReceived (data : List Byte)
  | connectionBroken
  | sendData (data : List Byte)
  | breakConn (clean : Bool)
  | setDataReceivedDelegate (d : Option Nat)
  | setBrokenDelegate (d : Option Nat)
deriving Repr, DecidableEq

/-- Apply one external operation (ghost events plainSubmitted and
cipherArrived record the bytes appended to the two queues). -/
def applyExternal : ExternalOp → ConnState → ConnState × List Event
  | ExternalOp.secureDataReceived d, s =>
      (SecureDataReceived d s, [Event.cipherArrived d])
  | ExternalOp.connectionBroken, s => ConnectionBroken s
  | ExternalOp.sendData d, s => (SendData d s, [Event.plainSubmitted d])
  | ExternalOp.breakConn c, s => Break c s
  | ExternalOp.setDataReceivedDelegate d, s => (SetDataReceivedDelegate d s, [])
  | ExternalOp.setBrokenDelegate d, s => (SetBrokenDelegate d s, [])

/-- Apply a sequence of external operations (used for the activity of other
threads during the window in which the worker releases the lock to deliver
decrypted data). -/
def applyMid : List ExternalOp → ConnState → ConnState × List Event
  | [], s => (s, [])
  | op :: rest, s =>
      let r := applyExternal op s
      let r' := applyMid rest r.1
      (r'.1, r.2 ++ r'.2)

/-- Oracle describing one tls_read call by the worker: the hook calls made
during it, the value tls_read returns, the plaintext it produced (its first
`amount` bytes are what the scratch buffer holds after the resize), and the
external activity during the unlocked delivery window. -/
structure ReadCall where
  hooks : List HookCall
  amount : Int
  plaintext : List Byte
  mid : List ExternalOp
deriving Repr, DecidableEq

/-- The end-of-connection check made after delivering decrypted data,
translated from the block after the dataReceivedDelegate_ call in Worker:
if receiveBufferSecure_ is empty and open_ is false, invoke the broken
delegate (when registered) with false. -/
def brokenCheck (s : ConnState) : List Event :=
  if s.receiveBufferSecure.isEmpty && !s.isOpen then
    if s.brokenDelegate.isSome then
      [Event.broken false s.receiveBufferSecure]
    else []
  else []

/-- Delivery of a decrypted chunk: when a data-received delegate is
registered the worker unlocks, invokes it, and relocks; other threads may
run during that window (`mid`). -/
def deliverPhase (chunk : List Byte) (mid : List ExternalOp) (s : ConnState) :
    ConnState × List Event :=
  if s.dataReceivedDelegate.isSome then
    let m := applyMid mid s
    (m.1, Event.dataReceived chunk :: m.2)
  else
    (s, [])

/-- The read-attempt phase of one Worker wake cycle, translated from the
second block of TlsConnectionDecorator::Worker's loop.  `tryRead` is the
worker-local keep-trying flag.  The attempt happens when
receiveBufferSecure_ is non-empty or tryRead is set; the flag is set at the
start of the attempt and cleared only when tls_read returns 0.  The ghost
event decryptCall records the tls_read invocation and its buffer size. -/
def readAttempt (dec : ReadCall) (tryRead : Bool) (s : ConnState) :
    ConnState × Bool × List Event :=
  if !s.receiveBufferSecure.isEmpty || tryRead then
    let r := runHooks dec.hooks s
    let s1 := r.1
    let hookEvs := r.2
    let amount := dec.amount
    if amount = TLS_WANT_POLLIN then
      (s1, true, Event.decryptCall DECRYPTED_BUFFER_SIZE :: hookEvs)
    else if amount = TLS_WANT_POLLOUT then
      (s1, true, Event.decryptCall DECRYPTED_BUFFER_SIZE :: hookEvs)
    else if amount < 0 then
      (s1, true,
       Event.decryptCall DECRYPTED_BUFFER_SIZE ::
         (hookEvs ++ [Event.upperBreak false]))
    else if 0 < amount then
      let chunk := dec.plaintext.take amount.toNat
      let d := deliverPhase chunk dec.mid s1
      (d.1, true,
       Event.decryptCall DECRYPTED_BUFFER_SIZE ::
         (hookEvs ++ d.2 ++ brokenCheck d.1))
    else
      (s1, false, Event.decryptCall DECRYPTED_BUFFER_SIZE :: hookEvs)
  else
    (s, tryRead, [])

/-- The engine oracle for one full worker wake cycle. -/
structure CycleOracle where
  enc : EngineCall
  dec : ReadCall
deriving Repr, DecidableEq

/-- One wake cycle of TlsConnectionDecorator::Worker: the write attempt
followed by the read attempt, threading the keep-trying flag. -/
def workerCycle (o : CycleOracle) (tryRead : Bool) (s : ConnState) :
    ConnState × Bool × List Event :=
  let w := writeAttempt o.enc s
  let r := readAttempt o.dec tryRead w.1
  (r.1, r.2.1, w.2 ++ r.2.2)

/-- A step of a connection's history: either an external operation or one
worker wake cycle with its engine oracle. -/
inductive TraceStep where
  | ext (op : ExternalOp)
  | cycle (o : CycleOracle)
deriving Repr, DecidableEq

/-- Run a trace of steps from a state and a keep-trying flag, collecting
all events in order. -/
def runTrace : List TraceStep → ConnState → Bool → ConnState × Bool × List Event
  | [], s, tr => (s, tr, [])
  | TraceStep.ext op :: rest, s, tr =>
      let r := applyExternal op s
      let r' := runTrace rest r.1 tr
      (r'.1, r'.2.1, r.2 ++ r'.2.2)
  | TraceStep.cycle o :: rest, s, tr =>
      let r := workerCycle o tr s
      let r' := runTrace rest r.1 r.2.1
      (r'.1, r'.2.1, r.2.2 ++ r'.2.2)

/-- The fields of a TlsConnectionDecorator object relevant to connection
setup: the stored raw connection and delegates (none models a null
pointer), the TLS configuration built (none until tls_config_new has run),
and whether the worker thread has been started. -/
structure DecoratorConn where
  upperLayer : Option Nat
  dataReceivedDelegate : Option Nat
  brokenDelegate : Option Nat
  tlsConfig : Option TlsConfig
  workerStarted : Bool
deriving Repr, DecidableEq

/-- TlsConnectionDecorator::Connect, with the engine outcomes as oracles:
if the worker is already joinable, fail; otherwise store the upper-layer
connection (unchecked: a null upper layer is stored as-is) and the
delegates, build the configuration (noverifycert, noverifyname, protocols
set to the default), then fail if tls_configure fails, fail if
tls_connect_cbs fails, and otherwise start the worker and succeed.
Returns the success flag and the object's resulting state. -/
def tlsConnectionConnect (workerJoinable : Bool) (upper drd brd : Option Nat)
    (tlsConfigureOk tlsConnectCbsOk : Bool) : Bool × DecoratorConn :=
  let init : DecoratorConn :=
    { upperLayer := none, dataReceivedDelegate := none, brokenDelegate := none,
      tlsConfig := none, workerStarted := false }
  if workerJoinable then
    (false, init)
  else
    let cfg :=
      tls_config_set_protocols
        (tls_config_insecure_noverifyname
          (tls_config_insecure_noverifycert tls_config_new))
        TLS_PROTOCOLS_DEFAULT
    let obj : DecoratorConn :=
      { upperLayer := upper, dataReceivedDelegate := drd,
        brokenDelegate := brd, tlsConfig := some cfg, workerStarted := false }
    if !tlsConfigureOk then
      (false, obj)
    else if !tlsConnectCbsOk then
      (false, obj)
    else
      (true, { obj with workerStarted := true })

/-- TlsDecorator::Connect: obtain a raw connection from the wrapped
transport (its result, possibly none for a failed connect, is passed to the
connection decorator unchecked), construct a fresh TlsConnectionDecorator
(whose worker is not yet joinable) and call its Connect; return the
decorator when that succeeds and none when it fails. -/
def tlsDecoratorConnect (upperConnectResult drd brd : Option Nat)
    (tlsConfigureOk tlsConnectCbsOk : Bool) : Option DecoratorConn :=
  let r := tlsConnectionConnect false upperConnectResult drd brd
    tlsConfigureOk tlsConnectCbsOk
  if r.1 then some r.2 else none

/-- Helper: is an event a broken-delegate invocation? -/
def isBrokenEvent : Event → Bool
  | Event.broken _ _ => true
  | _ => false

/-- Helper: a broken-delegate invocation is sound when the ciphertext
buffer recorded at its fire instant is empty. -/
def brokenEventOk : Event → Bool
  | Event.broken _ buf => buf.isEmpty
  | _ => true

/-- Every broken-delegate invocation in the list happened with an empty
receiveBufferSecure_. -/
def allBrokenEmpty (evs : List Event) : Bool :=
  evs.all brokenEventOk

/-- The number of broken-delegate invocations in the list. -/
def countBroken (evs : List Event) : Nat :=
  evs.countP isBrokenEvent

/-- Bytes recorded as consumed from the head of sendBuffer_. -/
def plainConsumedOf : Event → Option (List Byte)
  | Event.plainConsumed d => some d
  | _ => none

/-- Bytes recorded as appended at the tail of sendBuffer_. -/
def plainSubmittedOf : Event → Option (List Byte)
  | Event.plainSubmitted d => some d
  | _ => none

/-- Bytes recorded as consumed from the head of receiveBufferSecure_. -/
def cipherConsumedOf : Event → Option (List Byte)
  | Event.cipherConsumed d => some d
  | _ => none

/-- Bytes recorded as appended at the tail of receiveBufferSecure_. -/
def cipherArrivedOf : Event → Option (List Byte)
  | Event.cipherArrived d => some d
  | _ => none

/-- Concatenation of all bytes consumed from sendBuffer_, in order. -/
def plainConsumed (evs : List Event) : List Byte :=
  (evs.filterMap plainConsumedOf).flatten

/-- Concatenation of all bytes the caller submitted via SendData, in order. -/
def plainSubmitted (evs : List Event) : List Byte :=
  (evs.filterMap plainSubmittedOf).flatten

/-- Concatenation of all bytes the engine consumed from
receiveBufferSecure_, in order. -/
def cipherConsumed (evs : List Event) : List Byte :=
  (evs.filterMap cipherConsumedOf).flatten

/-- Concatenation of all ciphertext bytes received from the raw
connection, in order. -/
def cipherArrived (evs : List Event) : List Byte :=
  (evs.filterMap cipherArrivedOf).flatten

/-- The FIFO relation between the events of a program fragment and its
start and end states: the bytes consumed from each queue followed by the
bytes still queued equal the bytes initially queued followed by the bytes
submitted, for both sendBuffer_ and receiveBufferSecure_. -/
def BufDelta (s s' : ConnState) (evs : List Event) : Prop :=
  plainConsumed evs ++ s'.sendBuffer = s.sendBuffer ++ plainSubmitted evs ∧
  cipherConsumed evs ++ s'.receiveBufferSecure =
    s.receiveBufferSecure ++ cipherArrived evs

/-- Example state: freshly connected, both delegates registered, empty
buffers. -/
def exConn : ConnState :=
  { sendBuffer := [], receiveBufferSecure := [], isOpen := true,
    canWrite := true, stopWorker := false,
    dataReceivedDelegate := some 0, brokenDelegate := some 0 }

/-- Example state: one buffered ciphertext byte, connection open, no
delegates registered. -/
def exNonEmptyOpen : ConnState :=
  { sendBuffer := [], receiveBufferSecure := [42], isOpen := true,
    canWrite := false, stopWorker := false,
    dataReceivedDelegate := none, brokenDelegate := none }

/-- Example state: pending plaintext to send, connection open and
writable. -/
def exSendPending : ConnState :=
  { sendBuffer := [1], receiveBufferSecure := [], isOpen := true,
    canWrite := true, stopWorker := false,
    dataReceivedDelegate := some 0, brokenDelegate := some 0 }

/-- Example engine oracle: tls_write returns TLS_WANT_POLLIN, making no
hook calls. -/
def exPollinWrite : EngineCall :=
  { hooks := [], result := TLS_WANT_POLLIN }

/-- Example engine oracle: tls_read returns TLS_WANT_POLLIN, making no
hook calls. -/
def exPollinRead : ReadCall :=
  { hooks := [], amount := TLS_WANT_POLLIN, plaintext := [], mid := [] }

/-- Example trace: the raw connection breaks with nothing buffered, then a
worker cycle in which the engine still produces 5 residual plaintext
bytes. -/
def exBreakThenRead : List TraceStep :=
  [TraceStep.ext ExternalOp.connectionBroken,
   TraceStep.cycle
     { enc := { hooks := [], result := 0 },
       dec := { hooks := [], amount := 5, plaintext := [1, 2, 3, 4, 5],
                mid := [] } }]

/- ------------------------------------------------------------------ -/
/- Helper lemmas                                                       -/
/- ------------------------------------------------------------------ -/

/-- The engine-wants-ciphertext hook never changes sendBuffer_. -/
theorem readCb_sendBuffer (n : Nat) (s : ConnState) :
    (readCb n s).1.sendBuffer = s.sendBuffer := by
  simp only [readCb]
  split <;> rfl

/-- The engine-emits-ciphertext hook never changes the state. -/
theorem writeCb_state (b : List Byte) (s : ConnState) :
    (writeCb b s).1 = s := by
  simp only [writeCb]
  split <;> rfl

/-- Running any sequence of engine hook calls never changes sendBuffer_. -/
theorem runHooks_sendBuffer (hs : List HookCall) (s : ConnState) :
    (runHooks hs s).1.sendBuffer = s.sendBuffer := by
  induction hs generalizing s with
  | nil => rfl
  | cons h rest ih =>
    cases h with
    | read n => simp only [runHooks]; rw [ih, readCb_sendBuffer]
    | write b => simp only [runHooks]; rw [ih, writeCb_state]

theorem plainConsumed_append (a b : List Event) :
    plainConsumed (a ++ b) = plainConsumed a ++ plainConsumed b := by
  simp [plainConsumed, List.filterMap_append]

theorem plainSubmitted_append (a b : List Event) :
    plainSubmitted (a ++ b) = plainSubmitted a ++ plainSubmitted b := by
  simp [plainSubmitted, List.filterMap_append]

theorem cipherConsumed_append (a b : List Event) :
    cipherConsumed (a ++ b) = cipherConsumed a ++ cipherConsumed b := by
  simp [cipherConsumed, List.filterMap_append]

theorem cipherArrived_append (a b : List Event) :
    cipherArrived (a ++ b) = cipherArrived a ++ cipherArrived b := by
  simp [cipherArrived, List.filterMap_append]

theorem plainConsumed_cons (e : Event) (evs : List Event) :
    plainConsumed (e :: evs) =
      (plainConsumedOf e).elim [] id ++ plainConsumed evs := by
  rcases he : plainConsumedOf e with _ | d <;>
    simp [plainConsumed, List.filterMap_cons, he]

theorem plainSubmitted_cons (e : Event) (evs : List Event) :
    plainSubmitted (e :: evs) =
      (plainSubmittedOf e).elim [] id ++ plainSubmitted evs := by
  rcases he : plainSubmittedOf e with _ | d <;>
    simp [plainSubmitted, List.filterMap_cons, he]

theorem cipherConsumed_cons (e : Event) (evs : List Event) :
    cipherConsumed (e :: evs) =
      (cipherConsumedOf e).elim [] id ++ cipherConsumed evs := by
  rcases he : cipherConsumedOf e with _ | d <;>
    simp [cipherConsumed, List.filterMap_cons, he]

theorem cipherArrived_cons (e : Event) (evs : List Event) :
    cipherArrived (e :: evs) =
      (cipherArrivedOf e).elim [] id ++ cipherArrived evs := by
  rcases he : cipherArrivedOf e with _ | d <;>
    simp [cipherArrived, List.filterMap_cons, he]

/-- Engine hook calls record no sendBuffer_ consumption. -/
theorem plainConsumed_runHooks (hs : List HookCall) (s : ConnState) :
    plainConsumed (runHooks hs s).2 = [] := by
  induction hs generalizing s with
  | nil => simp [runHooks, plainConsumed]
  | cons h rest ih =>
    cases h with
    | read n =>
      simp only [runHooks, plainConsumed_append, ih, List.append_nil]
      simp only [readCb]
      split <;> simp [plainConsumed, plainConsumedOf]
    | write b =>
      simp only [runHooks, plainConsumed_append, ih, List.append_nil]
      simp only [writeCb]
      split <;> simp [plainConsumed, plainConsumedOf]

/- ------------------------------------------------------------------ -/
/- Claim theorems                                                      -/
/- ------------------------------------------------------------------ -/

/-- C5: at the end of every worker cycle the worker blocks on the wake
condition and proceeds exactly when the wake predicate holds, and that
predicate is exactly: stopRequested OR secureReceiveBuffer non-empty OR
(sendBuffer non-empty AND canFeedEngine). -/
theorem wake_predicate_exact (s : ConnState) :
    wakePredicate s = true ↔ wakePredicateSpec s := by
  simp [wakePredicate, wakePredicateSpec, List.isEmpty_iff, or_assoc]

/-- Witness for wake_predicate_exact at a concrete state whose
stopWorker_ flag is set. -/
theorem wake_predicate_exact_witness :
    wakePredicate { exConn with stopWorker := true } = true :=
  (wake_predicate_exact { exConn with stopWorker := true }).mpr (Or.inl rfl)

/-- C10: SetDataReceivedDelegate and SetBrokenDelegate are no-ops for
every state and every argument — they leave every field of the connection
state unchanged, so the delegates supplied at Connect time can never be
replaced through the public interface. -/
theorem set_delegates_noop (d : Option Nat) (s : ConnState) :
    SetDataReceivedDelegate d s = s ∧ SetBrokenDelegate d s = s :=
  ⟨rfl, rfl⟩

/-- C9: for every buffer of length L given to the engine-emits-ciphertext
hook, the hook reports L bytes written in every case; when the connection
is open it forwards exactly those L bytes in order to the raw connection's
send primitive, and when the connection is not open it forwards nothing
(the bytes are silently discarded) while still reporting L. -/
theorem writeCb_cases (buf : List Byte) (s : ConnState) :
    (s.isOpen = true →
      writeCb buf s = (s, Int.ofNat buf.length, [Event.upperSend buf])) ∧
    (s.isOpen = false →
      writeCb buf s = (s, Int.ofNat buf.length, [])) := by
  constructor <;> intro h <;> simp [writeCb, h]

/-- Witness for writeCb_cases: on a closed connection the bytes are
dropped but reported as written. -/
theorem writeCb_cases_witness :
    ({ exConn with isOpen := false } : ConnState).isOpen = false ∧
    writeCb [7, 8] { exConn with isOpen := false } =
      ({ exConn with isOpen := false }, Int.ofNat 2, []) :=
  ⟨rfl, (writeCb_cases [7, 8] { exConn with isOpen := false }).2 rfl⟩

/-- C4 (amended): the engine-wants-ciphertext hook with a request for up
to B bytes: when min(B, buffered) is positive it returns that many bytes,
consuming exactly that prefix of secureReceiveBuffer (and re-enabling
engine writes); when min(B, buffered) = 0 and the connection is open it
returns the would-block sentinel and leaves all state unchanged; when
min(B, buffered) = 0 and the connection is closed it returns zero. -/
theorem readCb_cases (B : Nat) (s : ConnState) :
    (0 < min B s.receiveBufferSecure.length →
      readCb B s =
        ({ s with
             canWrite := true,
             receiveBufferSecure :=
               s.receiveBufferSecure.drop (min B s.receiveBufferSecure.length) },
         Int.ofNat (min B s.receiveBufferSecure.length),
         [Event.cipherConsumed
           (s.receiveBufferSecure.take (min B s.receiveBufferSecure.length))])) ∧
    (min B s.receiveBufferSecure.length = 0 → s.isOpen = true →
      readCb B s = (s, TLS_WANT_POLLIN, [])) ∧
    (min B s.receiveBufferSecure.length = 0 → s.isOpen = false →
      (readCb B s).2.1 = 0) := by
  refine ⟨fun hpos => ?_, fun hz hop => ?_, fun hz hcl => ?_⟩
  · simp only [readCb]
    rw [if_neg (by simp [Nat.pos_iff_ne_zero.mp hpos])]
    split
    · rename_i hlen
      simp [hlen, List.drop_length]
    · rfl
  · simp [readCb, hz, hop]
  · simp [readCb, hz, hcl, Int.ofNat_zero]

/-- C4 counterexample: an invocation with B = 0 while secureReceiveBuffer
is non-empty on an open connection returns the would-block sentinel, not
min(B, buffered) = 0 bytes as the claim requires for a non-empty buffer. -/
theorem readCb_zero_request_cex :
    exNonEmptyOpen.receiveBufferSecure ≠ [] ∧
    (readCb 0 exNonEmptyOpen).2.1 = TLS_WANT_POLLIN ∧
    TLS_WANT_POLLIN ≠ (0 : Int) := by
  decide

/-- Witness for readCb_cases at B = 1 against a one-byte buffer. -/
theorem readCb_cases_witness :
    0 < min 1 exNonEmptyOpen.receiveBufferSecure.length ∧
    readCb 1 exNonEmptyOpen =
      ({ exNonEmptyOpen with
           canWrite := true,
           receiveBufferSecure :=
             exNonEmptyOpen.receiveBufferSecure.drop
               (min 1 exNonEmptyOpen.receiveBufferSecure.length) },
       Int.ofNat (min 1 exNonEmptyOpen.receiveBufferSecure.length),
       [Event.cipherConsumed
         (exNonEmptyOpen.receiveBufferSecure.take
           (min 1 exNonEmptyOpen.receiveBufferSecure.length))]) :=
  ⟨by decide, (readCb_cases 1 exNonEmptyOpen).1 (by decide)⟩

/-- C8: every run of TlsConnectionDecorator::Connect that succeeds in
starting the handshake configured the engine beforehand with
peer-certificate verification disabled, peer-name verification disabled
and the protocol set fixed to the engine default — for all inputs, so no
configuration input can enable verification. -/
theorem handshake_config_insecure (workerJoinable : Bool)
    (upper drd brd : Option Nat) (cfgOk cbsOk : Bool) :
    (tlsConnectionConnect workerJoinable upper drd brd cfgOk cbsOk).1 = true →
    (tlsConnectionConnect workerJoinable upper drd brd cfgOk cbsOk).2.tlsConfig =
      some { verifycert := false, verifyname := false,
             protocols := TLS_PROTOCOLS_DEFAULT } := by
  cases workerJoinable <;> cases cfgOk <;> cases cbsOk <;>
    simp [tlsConnectionConnect, tls_config_new, tls_config_set_protocols,
      tls_config_insecure_noverifycert, tls_config_insecure_noverifyname]

/-- Witness for handshake_config_insecure on a successful connect. -/
theorem handshake_config_insecure_witness :
    (tlsConnectionConnect false (some 0) (some 1) (some 2) true true).1 = true ∧
    (tlsConnectionConnect false (some 0) (some 1) (some 2) true true).2.tlsConfig =
      some { verifycert := false, verifyname := false,
             protocols := TLS_PROTOCOLS_DEFAULT } :=
  ⟨by decide,
   handshake_config_insecure false (some 0) (some 1) (some 2) true true
     (by decide)⟩

/-- C2 (amended): when the handshake start fails because the engine
configuration fails (tls_configure or tls_connect_cbs reporting an error),
the transport decorator's Connect returns the null failure indicator and
the worker thread is never started. -/
theorem connect_fails_on_engine_config_error (upper drd brd : Option Nat)
    (cfgOk cbsOk : Bool) :
    cfgOk = false ∨ cbsOk = false →
    tlsDecoratorConnect upper drd brd cfgOk cbsOk = none ∧
    (tlsConnectionConnect false upper drd brd cfgOk cbsOk).2.workerStarted =
      false := by
  intro h
  rcases h with h | h
  · subst h
    simp [tlsDecoratorConnect, tlsConnectionConnect]
  · subst h
    cases cfgOk <;> simp [tlsDecoratorConnect, tlsConnectionConnect]

/-- C2 counterexample: when the underlying transport's Connect fails
(null raw connection) while the engine configuration succeeds, the
decorator's Connect does not return failure — it returns a connection
object wrapping the null raw connection, with its worker started. -/
theorem connect_null_upper_cex :
    tlsDecoratorConnect none (some 0) (some 1) true true =
      some { upperLayer := none, dataReceivedDelegate := some 0,
             brokenDelegate := some 1,
             tlsConfig := some { verifycert := false, verifyname := false,
                                 protocols := TLS_PROTOCOLS_DEFAULT },
             workerStarted := true } := by
  decide

/-- Witness for connect_fails_on_engine_config_error with tls_configure
failing. -/
theorem connect_fails_on_engine_config_error_witness :
    tlsDecoratorConnect (some 0) (some 1) (some 2) false true = none ∧
    (tlsConnectionConnect false (some 0) (some 1) (some 2) false
      true).2.workerStarted = false :=
  connect_fails_on_engine_config_error (some 0) (some 1) (some 2) false true
    (Or.inl rfl)

/-- C3: in every worker wake cycle, the write attempt happens only when
sendBuffer is non-empty and canFeedEngine (canWrite_) and open all hold
(otherwise the state and the outside world are untouched); when it
happens, Encrypt (tls_write) is called with the full sendBuffer; a
would-block-on-read (TLS_WANT_POLLIN) result clears canWrite_; a
non-negative result of n bytes removes exactly the first n bytes of
sendBuffer, leaving the rest unchanged and in order; a negative
non-sentinel result breaks the raw connection abruptly. -/
theorem writeAttempt_spec (enc : EngineCall) (s : ConnState) :
    (¬ (s.sendBuffer ≠ [] ∧ s.canWrite = true ∧ s.isOpen = true) →
      writeAttempt enc s = (s, [])) ∧
    ((s.sendBuffer ≠ [] ∧ s.canWrite = true ∧ s.isOpen = true) →
      (writeAttempt enc s).2.head? = some (Event.encryptCall s.sendBuffer) ∧
      (enc.result = TLS_WANT_POLLIN →
        (writeAttempt enc s).1.canWrite = false) ∧
      (0 ≤ enc.result →
        (writeAttempt enc s).1.sendBuffer =
          s.sendBuffer.drop enc.result.toNat ∧
        plainConsumed (writeAttempt enc s).2 =
          s.sendBuffer.take enc.result.toNat) ∧
      (enc.result < 0 → enc.result ≠ TLS_WANT_POLLIN →
        Event.upperBreak false ∈ (writeAttempt enc s).2)) := by
  have hcond : (!s.sendBuffer.isEmpty && s.canWrite && s.isOpen) = true ↔
      (s.sendBuffer ≠ [] ∧ s.canWrite = true ∧ s.isOpen = true) := by
    simp [List.isEmpty_iff, and_assoc]
  constructor
  · intro h
    have hfalse : (!s.sendBuffer.isEmpty && s.canWrite && s.isOpen) = false := by
      rcases Bool.eq_false_or_eq_true
        (!s.sendBuffer.isEmpty && s.canWrite && s.isOpen) with hb | hb
      · exact absurd (hcond.mp hb) h
      · exact hb
    simp [writeAttempt, hfalse]
  · intro h
    have htrue := hcond.mpr h
    refine ⟨?_, fun hpollin => ?_, fun hok => ?_, fun hneg hnotin => ?_⟩
    · simp only [writeAttempt, htrue]
      rw [if_pos trivial]
      split
      · rfl
      · split <;> rfl
    · simp [writeAttempt, htrue, hpollin]
    · have hnotpollin : enc.result ≠ TLS_WANT_POLLIN := by
        intro hEq
        rw [hEq] at hok
        exact absurd hok (by decide)
      have hnotneg : ¬ enc.result < 0 := by omega
      constructor
      · simp only [writeAttempt, htrue]
        rw [if_pos trivial, if_neg hnotpollin, if_neg hnotneg]
        rw [runHooks_sendBuffer]
        split
        · rename_i hlen
          simp [hlen, List.drop_length]
        · rfl
      · simp only [writeAttempt, htrue]
        rw [if_pos trivial, if_neg hnotpollin, if_neg hnotneg]
        rw [plainConsumed_cons, plainConsumed_append, plainConsumed_runHooks,
          runHooks_sendBuffer]
        simp [plainConsumed, plainConsumedOf, plainConsumed_cons]
    · have hlt : enc.result < 0 := hneg
      simp only [writeAttempt, htrue]
      rw [if_pos trivial, if_neg hnotin, if_pos hlt]
      simp

/-- Witness for writeAttempt_spec: a pending send on an open, writable
connection with a would-block engine result clears canWrite_. -/
theorem writeAttempt_spec_witness :
    (exSendPending.sendBuffer ≠ [] ∧ exSendPending.canWrite = true ∧
      exSendPending.isOpen = true) ∧
    (writeAttempt exPollinWrite exSendPending).1.canWrite = false :=
  ⟨⟨by decide, rfl, rfl⟩,
   ((writeAttempt_spec exPollinWrite exSendPending).2
     ⟨by decide, rfl, rfl⟩).2.1 rfl⟩

/-- C6 (amended): in every worker wake cycle a Decrypt (tls_read) attempt
occurs exactly when secureReceiveBuffer is non-empty or the keep-trying
flag is set; the flag is set at the start of every attempt and cleared
exactly by an attempt whose read returns 0 bytes — so it holds after any
read returning non-zero (including the would-block sentinels, which
therefore leave the flag set even if it was clear before the attempt) and
is false after a read returning 0. -/
theorem readAttempt_condition_and_flag (dec : ReadCall) (tr : Bool)
    (s : ConnState) :
    ((readAttempt dec tr s).2.2.head? =
      (if s.receiveBufferSecure ≠ [] ∨ tr = true
       then some (Event.decryptCall DECRYPTED_BUFFER_SIZE) else none)) ∧
    ((s.receiveBufferSecure ≠ [] ∨ tr = true) → dec.amount ≠ 0 →
      (readAttempt dec tr s).2.1 = true) ∧
    ((s.receiveBufferSecure ≠ [] ∨ tr = true) → dec.amount = 0 →
      (readAttempt dec tr s).2.1 = false) ∧
    (¬ (s.receiveBufferSecure ≠ [] ∨ tr = true) →
      readAttempt dec tr s = (s, tr, [])) := by
  have hcond : (!s.receiveBufferSecure.isEmpty || tr) = true ↔
      (s.receiveBufferSecure ≠ [] ∨ tr = true) := by
    simp [List.isEmpty_iff]
  by_cases h : s.receiveBufferSecure ≠ [] ∨ tr = true
  · have htrue := hcond.mpr h
    refine ⟨?_, fun _ hne => ?_, fun _ hz => ?_, fun hcontra => absurd h hcontra⟩
    · simp only [readAttempt, htrue]
      rw [if_pos trivial, if_pos h]
      split
      · rfl
      · split
        · rfl
        · split
          · rfl
          · split <;> rfl
    · simp only [readAttempt, htrue]
      rw [if_pos trivial]
      split
      · rfl
      · split
        · rfl
        · split
          · rfl
          · split
            · rfl
            · rename_i h1 h2 h3 h4
              exact absurd (by omega : dec.amount = 0) hne
    · simp only [readAttempt, htrue]
      rw [if_pos trivial, hz]
      simp [TLS_WANT_POLLIN, TLS_WANT_POLLOUT]
  · have hfalse : (!s.receiveBufferSecure.isEmpty || tr) = false := by
      rcases Bool.eq_false_or_eq_true
        (!s.receiveBufferSecure.isEmpty || tr) with hb | hb
      · exact absurd (hcond.mp hb) h
      · exact hb
    refine ⟨?_, fun hcontra => absurd hcontra h, fun hcontra => absurd hcontra h,
      fun _ => ?_⟩
    · simp [readAttempt, hfalse, h]
    · simp [readAttempt, hfalse]

/-- C6 counterexample: with the keep-trying flag clear and ciphertext
buffered, a read attempt returning the would-block sentinel sets the flag
(false before, true after), contradicting the claim that would-block
results neither set nor clear it. -/
theorem tryRead_set_by_would_block_cex :
    exNonEmptyOpen.receiveBufferSecure ≠ [] ∧
    exPollinRead.amount = TLS_WANT_POLLIN ∧
    (readAttempt exPollinRead false exNonEmptyOpen).2.1 = true := by
  decide

/-- Witness for readAttempt_condition_and_flag: buffered ciphertext forces
an attempt and the would-block result leaves the flag set. -/
theorem readAttempt_condition_and_flag_witness :
    (exNonEmptyOpen.receiveBufferSecure ≠ [] ∨ false = true) ∧
    (readAttempt exPollinRead false exNonEmptyOpen).2.1 = true :=
  ⟨Or.inl (by decide),
   (readAttempt_condition_and_flag exPollinRead false exNonEmptyOpen).2.1
     (Or.inl (by decide)) (by decide)⟩

/- Lemmas tracking broken-delegate invocations through the semantics. -/

theorem allBrokenEmpty_nil : allBrokenEmpty [] = true :=
  rfl

theorem allBrokenEmpty_cons (e : Event) (evs : List Event) :
    allBrokenEmpty (e :: evs) = (brokenEventOk e && allBrokenEmpty evs) := by
  simp [allBrokenEmpty]

theorem allBrokenEmpty_append (a b : List Event) :
    allBrokenEmpty (a ++ b) = (allBrokenEmpty a && allBrokenEmpty b) := by
  simp [allBrokenEmpty, List.all_append]

theorem allBrokenEmpty_readCb (n : Nat) (s : ConnState) :
    allBrokenEmpty (readCb n s).2.2 = true := by
  simp only [readCb]
  split <;> simp [allBrokenEmpty, brokenEventOk]

theorem allBrokenEmpty_writeCb (b : List Byte) (s : ConnState) :
    allBrokenEmpty (writeCb b s).2.2 = true := by
  simp only [writeCb]
  split <;> simp [allBrokenEmpty, brokenEventOk]

theorem allBrokenEmpty_runHooks (hs : List HookCall) (s : ConnState) :
    allBrokenEmpty (runHooks hs s).2 = true := by
  induction hs generalizing s with
  | nil => rfl
  | cons hk rest ih =>
    cases hk with
    | read n =>
      simp [runHooks, allBrokenEmpty_append, allBrokenEmpty_readCb, ih]
    | write b =>
      simp [runHooks, allBrokenEmpty_append, allBrokenEmpty_writeCb, ih]

theorem allBrokenEmpty_ConnectionBroken (s : ConnState) :
    allBrokenEmpty (ConnectionBroken s).2 = true := by
  simp only [ConnectionBroken]
  split
  · rename_i hguard
    rw [Bool.and_eq_true] at hguard
    simp_all [allBrokenEmpty, brokenEventOk]
  · rfl

theorem allBrokenEmpty_applyExternal (op : ExternalOp) (s : ConnState) :
    allBrokenEmpty (applyExternal op s).2 = true := by
  cases op with
  | secureDataReceived d => simp [applyExternal, allBrokenEmpty, brokenEventOk]
  | connectionBroken => exact allBrokenEmpty_ConnectionBroken s
  | sendData d => simp [applyExternal, allBrokenEmpty, brokenEventOk]
  | breakConn c => simp [applyExternal, Break, allBrokenEmpty, brokenEventOk]
  | setDataReceivedDelegate d => rfl
  | setBrokenDelegate d => rfl

theorem allBrokenEmpty_applyMid (ops : List ExternalOp) (s : ConnState) :
    allBrokenEmpty (applyMid ops s).2 = true := by
  induction ops generalizing s with
  | nil => rfl
  | cons op rest ih =>
    simp [applyMid, allBrokenEmpty_append, allBrokenEmpty_applyExternal, ih]

theorem allBrokenEmpty_brokenCheck (s : ConnState) :
    allBrokenEmpty (brokenCheck s) = true := by
  simp only [brokenCheck]
  split
  · rename_i hguard
    rw [Bool.and_eq_true] at hguard
    split
    · simp_all [allBrokenEmpty, brokenEventOk]
    · rfl
  · rfl

theorem allBrokenEmpty_deliverPhase (chunk : List Byte)
    (mid : List ExternalOp) (s : ConnState) :
    allBrokenEmpty (deliverPhase chunk mid s).2 = true := by
  simp only [deliverPhase]
  split
  · simp [allBrokenEmpty_cons, brokenEventOk, allBrokenEmpty_applyMid]
  · rfl

theorem allBrokenEmpty_writeAttempt (enc : EngineCall) (s : ConnState) :
    allBrokenEmpty (writeAttempt enc s).2 = true := by
  simp only [writeAttempt]
  split
  · split
    · simp [allBrokenEmpty_cons, brokenEventOk, allBrokenEmpty_runHooks]
    · split
      · simp [allBrokenEmpty_cons, allBrokenEmpty_append, allBrokenEmpty_nil,
          brokenEventOk, allBrokenEmpty_runHooks]
      · simp [allBrokenEmpty_cons, allBrokenEmpty_append, allBrokenEmpty_nil,
          brokenEventOk, allBrokenEmpty_runHooks]
  · rfl

theorem allBrokenEmpty_readAttempt (dec : ReadCall) (tr : Bool)
    (s : ConnState) :
    allBrokenEmpty (readAttempt dec tr s).2.2 = true := by
  simp only [readAttempt]
  split
  · split
    · simp [allBrokenEmpty_cons, brokenEventOk, allBrokenEmpty_runHooks]
    · split
      · simp [allBrokenEmpty_cons, brokenEventOk, allBrokenEmpty_runHooks]
      · split
        · simp [allBrokenEmpty_cons, allBrokenEmpty_append, allBrokenEmpty_nil,
            brokenEventOk, allBrokenEmpty_runHooks]
        · split
          · simp [allBrokenEmpty_cons, allBrokenEmpty_append,
              allBrokenEmpty_nil, brokenEventOk, allBrokenEmpty_runHooks,
              allBrokenEmpty_deliverPhase, allBrokenEmpty_brokenCheck]
          · simp [allBrokenEmpty_cons, brokenEventOk, allBrokenEmpty_runHooks]
  · rfl

theorem allBrokenEmpty_workerCycle (o : CycleOracle) (tr : Bool)
    (s : ConnState) :
    allBrokenEmpty (workerCycle o tr s).2.2 = true := by
  simp [workerCycle, allBrokenEmpty_append, allBrokenEmpty_writeAttempt,
    allBrokenEmpty_readAttempt]

/-- C1 (amended): along every trace of external events and worker cycles,
from every starting state, every invocation of the caller's onBroken
delegate happens at an instant at which secureReceiveBuffer is empty —
both at the immediate-fire site in ConnectionBroken and at the
post-decrypt site in the worker's read cycle.  (The exactly-once half of
the original claim is refuted separately: no once-only guard exists.) -/
theorem broken_fires_only_when_drained (t : List TraceStep) (s : ConnState)
    (tr : Bool) :
    allBrokenEmpty (runTrace t s tr).2.2 = true := by
  induction t generalizing s tr with
  | nil => rfl
  | cons step rest ih =>
    cases step with
    | ext op =>
      simp [runTrace, allBrokenEmpty_append, allBrokenEmpty_applyExternal, ih]
    | cycle o =>
      simp [runTrace, allBrokenEmpty_append, allBrokenEmpty_workerCycle, ih]

/-- C1 counterexample: a trace on which the broken delegate is invoked
twice in one connection lifetime — the raw connection breaks with an empty
buffer (immediate fire), then the worker's next read cycle obtains residual
plaintext from the engine and, finding the buffer empty and the connection
closed, fires again. -/
theorem broken_fired_twice_cex :
    countBroken (runTrace exBreakThenRead exConn true).2.2 = 2 ∧
    (2 : Nat) ≠ 1 := by
  decide

/- Lemmas establishing the FIFO relation through the semantics. -/

theorem bufDelta_nil (s : ConnState) : BufDelta s s [] := by
  constructor <;>
    simp [plainConsumed, plainSubmitted, cipherConsumed, cipherArrived]

theorem bufDelta_comp {s s1 s2 : ConnState} {e1 e2 : List Event}
    (h1 : BufDelta s s1 e1) (h2 : BufDelta s1 s2 e2) :
    BufDelta s s2 (e1 ++ e2) := by
  constructor
  · rw [plainConsumed_append, plainSubmitted_append, List.append_assoc, h2.1,
      ← List.append_assoc, h1.1, List.append_assoc]
  · rw [cipherConsumed_append, cipherArrived_append, List.append_assoc, h2.2,
      ← List.append_assoc, h1.2, List.append_assoc]

/-- Prepending an event that records no queue mutation preserves the FIFO
relation. -/
theorem bufDelta_cons_neutral {s s' : ConnState} {evs : List Event}
    (e : Event) (hp : plainConsumedOf e = none)
    (hps : plainSubmittedOf e = none) (hc : cipherConsumedOf e = none)
    (hca : cipherArrivedOf e = none) (h : BufDelta s s' evs) :
    BufDelta s s' (e :: evs) := by
  constructor
  · rw [plainConsumed_cons, plainSubmitted_cons, hp, hps]
    simpa using h.1
  · rw [cipherConsumed_cons, cipherArrived_cons, hc, hca]
    simpa using h.2

theorem bufDelta_readCb (n : Nat) (s : ConnState) :
    BufDelta s (readCb n s).1 (readCb n s).2.2 := by
  simp only [readCb]
  split
  · exact bufDelta_nil s
  · constructor
    · simp [plainConsumed, plainSubmitted, plainConsumedOf, plainSubmittedOf]
    · split
      · rename_i hlen
        simp [cipherConsumed, cipherArrived, cipherConsumedOf,
          cipherArrivedOf, hlen]
      · simp [cipherConsumed, cipherArrived, cipherConsumedOf,
          cipherArrivedOf, List.take_append_drop]

theorem bufDelta_writeCb (b : List Byte) (s : ConnState) :
    BufDelta s (writeCb b s).1 (writeCb b s).2.2 := by
  simp only [writeCb]
  split <;> constructor <;>
    simp [plainConsumed, plainSubmitted, cipherConsumed, cipherArrived,
      plainConsumedOf, plainSubmittedOf, cipherConsumedOf, cipherArrivedOf]

theorem bufDelta_runHooks (hs : List HookCall) (s : ConnState) :
    BufDelta s (runHooks hs s).1 (runHooks hs s).2 := by
  induction hs generalizing s with
  | nil => exact bufDelta_nil s
  | cons hk rest ih =>
    cases hk with
    | read n =>
      simp only [runHooks]
      exact bufDelta_comp (bufDelta_readCb n s) (ih _)
    | write b =>
      simp only [runHooks]
      exact bufDelta_comp (bufDelta_writeCb b s) (ih _)

theorem bufDelta_ConnectionBroken (s : ConnState) :
    BufDelta s (ConnectionBroken s).1 (ConnectionBroken s).2 := by
  simp only [ConnectionBroken]
  split <;> constructor <;>
    simp [plainConsumed, plainSubmitted, cipherConsumed, cipherArrived,
      plainConsumedOf, plainSubmittedOf, cipherConsumedOf, cipherArrivedOf]

theorem bufDelta_applyExternal (op : ExternalOp) (s : ConnState) :
    BufDelta s (applyExternal op s).1 (applyExternal op s).2 := by
  cases op with
  | secureDataReceived d =>
    constructor <;>
      simp [applyExternal, SecureDataReceived, plainConsumed, plainSubmitted,
        cipherConsumed, cipherArrived, plainConsumedOf, plainSubmittedOf,
        cipherConsumedOf, cipherArrivedOf]
  | connectionBroken => exact bufDelta_ConnectionBroken s
  | sendData d =>
    constructor <;>
      simp [applyExternal, SendData, plainConsumed, plainSubmitted,
        cipherConsumed, cipherArrived, plainConsumedOf, plainSubmittedOf,
        cipherConsumedOf, cipherArrivedOf]
  | breakConn c =>
    constructor <;>
      simp [applyExternal, Break, plainConsumed, plainSubmitted,
        cipherConsumed, cipherArrived, plainConsumedOf, plainSubmittedOf,
        cipherConsumedOf, cipherArrivedOf]
  | setDataReceivedDelegate d => exact bufDelta_nil s
  | setBrokenDelegate d => exact bufDelta_nil s

theorem bufDelta_applyMid (ops : List ExternalOp) (s : ConnState) :
    BufDelta s (applyMid ops s).1 (applyMid ops s).2 := by
  induction ops generalizing s with
  | nil => exact bufDelta_nil s
  | cons op rest ih =>
    simp only [applyMid]
    exact bufDelta_comp (bufDelta_applyExternal op s) (ih _)

theorem bufDelta_brokenCheck (s : ConnState) :
    BufDelta s s (brokenCheck s) := by
  simp only [brokenCheck]
  split
  · split
    · constructor <;>
        simp [plainConsumed, plainSubmitted, cipherConsumed, cipherArrived,
          plainConsumedOf, plainSubmittedOf, cipherConsumedOf, cipherArrivedOf]
    · exact bufDelta_nil s
  · exact bufDelta_nil s

theorem bufDelta_deliverPhase (chunk : List Byte) (mid : List ExternalOp)
    (s : ConnState) :
    BufDelta s (deliverPhase chunk mid s).1 (deliverPhase chunk mid s).2 := by
  simp only [deliverPhase]
  split
  · exact bufDelta_cons_neutral _ rfl rfl rfl rfl (bufDelta_applyMid mid s)
  · exact bufDelta_nil s

theorem bufDelta_writeAttempt (enc : EngineCall) (s : ConnState) :
    BufDelta s (writeAttempt enc s).1 (writeAttempt enc s).2 := by
  simp only [writeAttempt]
  split
  · split
    · exact bufDelta_cons_neutral _ rfl rfl rfl rfl
        (bufDelta_runHooks enc.hooks s)
    · split
      · apply bufDelta_cons_neutral (Event.encryptCall s.sendBuffer)
          rfl rfl rfl rfl
        exact bufDelta_comp (bufDelta_runHooks enc.hooks s)
          (bufDelta_cons_neutral (Event.upperBreak false) rfl rfl rfl rfl
            (bufDelta_nil _))
      · apply bufDelta_cons_neutral (Event.encryptCall s.sendBuffer)
          rfl rfl rfl rfl
        refine bufDelta_comp (bufDelta_runHooks enc.hooks s) ?_
        constructor
        · simp only [plainConsumed_cons, plainSubmitted_cons, plainConsumedOf,
            plainSubmittedOf]
          split
          · rename_i hlen
            simp [plainConsumed, plainSubmitted, hlen]
          · simp [plainConsumed, plainSubmitted, List.take_append_drop]
        · simp [cipherConsumed, cipherArrived, cipherConsumedOf,
            cipherArrivedOf]
  · exact bufDelta_nil s

theorem bufDelta_readAttempt (dec : ReadCall) (tr : Bool) (s : ConnState) :
    BufDelta s (readAttempt dec tr s).1 (readAttempt dec tr s).2.2 := by
  simp only [readAttempt]
  split
  · split
    · exact bufDelta_cons_neutral _ rfl rfl rfl rfl
        (bufDelta_runHooks dec.hooks s)
    · split
      · exact bufDelta_cons_neutral _ rfl rfl rfl rfl
          (bufDelta_runHooks dec.hooks s)
      · split
        · apply bufDelta_cons_neutral (Event.decryptCall DECRYPTED_BUFFER_SIZE)
            rfl rfl rfl rfl
          exact bufDelta_comp (bufDelta_runHooks dec.hooks s)
            (bufDelta_cons_neutral (Event.upperBreak false) rfl rfl rfl rfl
              (bufDelta_nil _))
        · split
          · apply bufDelta_cons_neutral
              (Event.decryptCall DECRYPTED_BUFFER_SIZE) rfl rfl rfl rfl
            exact bufDelta_comp
              (bufDelta_comp (bufDelta_runHooks dec.hooks s)
                (bufDelta_deliverPhase _ dec.mid _))
              (bufDelta_brokenCheck _)
          · exact bufDelta_cons_neutral _ rfl rfl rfl rfl
              (bufDelta_runHooks dec.hooks s)
  · exact bufDelta_nil s

theorem bufDelta_workerCycle (o : CycleOracle) (tr : Bool) (s : ConnState) :
    BufDelta s (workerCycle o tr s).1 (workerCycle o tr s).2.2 := by
  simp only [workerCycle]
  exact bufDelta_comp (bufDelta_writeAttempt o.enc s)
    (bufDelta_readAttempt o.dec tr _)

/-- C7: along every trace of caller sends, ciphertext arrivals, and worker
cycles, sendBuffer and secureReceiveBuffer behave as FIFO byte queues:
the concatenation of all bytes consumed from each queue followed by the
bytes still queued equals the initial queue contents followed by the
concatenation of all bytes submitted, in submission order — so consumption
reproduces the submitted bytes in order, with no reordering. -/
theorem buffers_fifo (t : List TraceStep) (s : ConnState) (tr : Bool) :
    BufDelta s (runTrace t s tr).1 (runTrace t s tr).2.2 := by
  induction t generalizing s tr with
  | nil => exact bufDelta_nil s
  | cons step rest ih =>
    cases step with
    | ext op =>
      simp only [runTrace]
      exact bufDelta_comp (bufDelta_applyExternal op s) (ih _ _)
    | cycle o =>
      simp only [runTrace]
      exact bufDelta_comp (bufDelta_workerCycle o tr s) (ih _ _)

end Rover
